import Mathlib

/-!
Shallow embedding of the racing-game renderer (Rust, vulkano and ash backends).

The repository contains two alternate implementations of the same rendering
subsystem: `src/renderer/main_loop.rs` (ash bindings: device selection,
swapchain configuration, shutdown sequencing) and `src/renderer/renderer.rs`
(vulkano bindings: device selection and the per-frame event loop).  The
definitions below are translated directly from those source files; theorems
settle the specification claims about them.
-/

namespace RacingGame

/-! ### Data model for device selection
(`main_loop.rs::create_device`, `renderer.rs::Renderer::new`) -/

/-- Vulkan physical-device type classes (`vk::PhysicalDeviceType` /
`vulkano PhysicalDeviceType`). -/
inductive PhysicalDeviceType
  | DiscreteGpu
  | IntegratedGpu
  | VirtualGpu
  | Cpu
  | Other
deriving DecidableEq, Repr

/-- Per-queue-family capability bits relevant to selection: the
`GRAPHICS` flag and the per-family result of
`get_physical_device_surface_support` / `surface.is_supported(family)`. -/
structure QueueFamilyInfo where
  supports_graphics : Bool
  supports_surface : Bool
deriving DecidableEq, Repr

/-- What the code queries about one enumerated physical device. -/
structure PhysicalDeviceInfo where
  device_name : String
  device_type : PhysicalDeviceType
  supported_extensions : List String
  queue_families : List QueueFamilyInfo
deriving DecidableEq, Repr

/-- `main_loop.rs:207`: `let required_extensions_names = [khr::Swapchain::name()]`. -/
def required_extensions_names : List String := ["VK_KHR_swapchain"]

/-- Device-type priority used by both backends
(`main_loop.rs:271-277`, `renderer.rs:86-92`): discrete=0, integrated=1,
virtual=2, cpu=3, other=4. -/
def deviceTypeRank : PhysicalDeviceType → Nat
  | .DiscreteGpu => 0
  | .IntegratedGpu => 1
  | .VirtualGpu => 2
  | .Cpu => 3
  | .Other => 4

/-- `main_loop.rs:225-237`: every required extension name must appear
(exact match) among the device's supported extensions. -/
def supportsRequiredExtensions (dev : PhysicalDeviceInfo) : Bool :=
  required_extensions_names.all fun req =>
    dev.supported_extensions.any fun e => req = e

/-- `main_loop.rs:240-255`: `queue_families.iter().enumerate().position(...)`,
the first family index with graphics capability and surface support. -/
def graphicsQueueFamilyIndex (dev : PhysicalDeviceInfo) : Option Nat :=
  dev.queue_families.findIdx? fun f => f.supports_graphics && f.supports_surface

/-- `main_loop.rs:210-268`: `ok_physical_devices`, the devices passing the
extension check paired with their chosen queue-family index, in enumeration
order. -/
def ok_physical_devices (devs : List PhysicalDeviceInfo) :
    List (PhysicalDeviceInfo × Nat) :=
  devs.filterMap fun d =>
    if supportsRequiredExtensions d then
      (graphicsQueueFamilyIndex d).map fun i => (d, i)
    else none

/-- Comparison used by `sort_by_key` in `main_loop.rs:271-277` (Rust's
`sort_by_key` is a stable sort on the key). -/
def deviceRankLE (a b : PhysicalDeviceInfo × Nat) : Bool :=
  deviceTypeRank a.1.device_type ≤ deviceTypeRank b.1.device_type

/-- `main_loop.rs:198-299` (`create_device`): filter, stable-sort by
device-type rank, take the first survivor.  `expect` on an empty list is
modelled as `none`. -/
def create_device (devs : List PhysicalDeviceInfo) :
    Option (PhysicalDeviceInfo × Nat) :=
  ((ok_physical_devices devs).mergeSort deviceRankLE).head?

/-- `renderer.rs:71-84`: candidate (device, queue family) pairs of the vulkano
backend: devices whose supported extensions include the swapchain extension,
paired with the first queue family supporting graphics and the surface
(`find` returns the family itself rather than its index). -/
def vulkano_candidates (devs : List PhysicalDeviceInfo) :
    List (PhysicalDeviceInfo × QueueFamilyInfo) :=
  (devs.filter fun d => supportsRequiredExtensions d).filterMap fun d =>
    (d.queue_families.find? fun f => f.supports_graphics && f.supports_surface).map
      fun f => (d, f)

/-- Rust's `Iterator::min_by_key` fold: keep the current minimum, replacing it
only when a strictly smaller key appears (so the first minimum wins). -/
def min_by_key_go (key : α → Nat) (acc : α) : List α → α
  | [] => acc
  | y :: ys => min_by_key_go key (if key y < key acc then y else acc) ys

/-- Rust's `Iterator::min_by_key`: the first element attaining the minimal
key, `none` on an empty iterator. -/
def min_by_key (key : α → Nat) : List α → Option α
  | [] => none
  | x :: xs => some (min_by_key_go key x xs)

/-- `renderer.rs:71-93`: device selection of the vulkano backend
(`filter`/`filter_map`/`min_by_key` over the device-type rank). -/
def renderer_new_device_selection (devs : List PhysicalDeviceInfo) :
    Option (PhysicalDeviceInfo × QueueFamilyInfo) :=
  min_by_key (fun c => deviceTypeRank c.1.device_type) (vulkano_candidates devs)

/-- Example adapter enumeration: a CPU adapter enumerated before a discrete
GPU, both passing the extension and queue-family checks. -/
def witness_devices : List PhysicalDeviceInfo :=
  [{ device_name := "cpu0",
     device_type := .Cpu,
     supported_extensions := ["VK_KHR_swapchain"],
     queue_families := [{ supports_graphics := true, supports_surface := true }] },
   { device_name := "gpu0",
     device_type := .DiscreteGpu,
     supported_extensions := ["VK_KHR_swapchain"],
     queue_families := [{ supports_graphics := true, supports_surface := true }] }]

/-! ### Swapchain configuration policy (`main_loop.rs::create_swapchain`) -/

/-- `vk::Extent2D`. -/
structure Extent2D where
  width : Nat
  height : Nat
deriving DecidableEq, Repr

/-- The fields of `vk::SurfaceCapabilitiesKHR` that `create_swapchain` reads.
All fields are `u32` in the source; they are modelled as `Nat` with explicit
range hypotheses where overflow could matter. -/
structure SurfaceCapabilities where
  min_image_count : Nat
  max_image_count : Nat
  current_extent : Extent2D
  min_image_extent : Extent2D
  max_image_extent : Extent2D
deriving DecidableEq, Repr

/-- `u32::MAX`, the sentinel for an undefined surface extent. -/
def U32_MAX : Nat := 4294967295

/-- `vk::PresentModeKHR` values. -/
inductive PresentModeKHR
  | FIFO
  | MAILBOX
  | FIFO_RELAXED
  | IMMEDIATE
  | otherMode (n : Nat)
deriving DecidableEq, Repr

/-- `main_loop.rs:322-334`: presentation-mode choice in priority order FIFO,
MAILBOX, FIFO_RELAXED, IMMEDIATE, else the first supported mode (`expect`
on an empty list modelled as `none`). -/
def choose_presentation_mode (modes : List PresentModeKHR) :
    Option PresentModeKHR :=
  if modes.contains .FIFO then some .FIFO
  else if modes.contains .MAILBOX then some .MAILBOX
  else if modes.contains .FIFO_RELAXED then some .FIFO_RELAXED
  else if modes.contains .IMMEDIATE then some .IMMEDIATE
  else modes.head?

/-- `main_loop.rs:336-340`: `min_image_count + 1`, clamped by
`max_image_count` when the latter is nonzero (zero means unbounded).  The
`+ 1` is `u32` addition in the source, so it is taken modulo `2 ^ 32`. -/
def resolve_image_count (cap : SurfaceCapabilities) : Nat :=
  let image_count := (cap.min_image_count + 1) % 2 ^ 32
  if cap.max_image_count ≠ 0 then min image_count cap.max_image_count
  else image_count

/-- Rust `Ord::clamp` on `u32` (defined when `lo ≤ hi`). -/
def rust_clamp (x lo hi : Nat) : Nat := min (max x lo) hi

/-- `renderer.rs:110-117`: the vulkano backend requests
`2.clamp(caps.min_image_count, caps.max_image_count.unwrap_or(u32::MAX))`
images (vulkano reports the maximum as an `Option`, `none` meaning
unbounded). -/
def renderer_new_num_images (min_image_count : Nat)
    (max_image_count : Option Nat) : Nat :=
  rust_clamp 2 min_image_count (max_image_count.getD U32_MAX)

/-- `main_loop.rs:342-360`: when both components of the reported current
extent are `u32::MAX` (undefined sentinel), clamp the window inner size
component-wise into `[min_image_extent, max_image_extent]`; otherwise use the
reported current extent verbatim. -/
def resolve_extent (cap : SurfaceCapabilities) (window_size : Extent2D) :
    Extent2D :=
  if cap.current_extent.width = U32_MAX ∧ cap.current_extent.height = U32_MAX then
    { width := rust_clamp window_size.width
        cap.min_image_extent.width cap.max_image_extent.width,
      height := rust_clamp window_size.height
        cap.min_image_extent.height cap.max_image_extent.height }
  else cap.current_extent

/-- `vk::SurfaceFormatKHR`. -/
structure SurfaceFormat where
  format : Nat
  color_space : Nat
deriving DecidableEq, Repr

/-- The resolved swapchain configuration (the fields of
`vk::SwapchainCreateInfoKHR` that the policy decides). -/
structure SwapchainCreateInfo where
  min_image_count : Nat
  image_format : Nat
  image_color_space : Nat
  image_extent : Extent2D
  present_mode : PresentModeKHR
deriving DecidableEq, Repr

/-- One image view per swapchain image (`main_loop.rs:387-412`). -/
structure VkImageView where
  image : Nat
  format : Nat
deriving DecidableEq, Repr

/-- `main_loop.rs:301-415` (`create_swapchain`): take the first surface
format, choose the presentation mode, resolve image count and extent, then
build one image view per swapchain image.  The `expect`/`unwrap` panics on
missing formats or modes are modelled as `none`. -/
def create_swapchain (cap : SurfaceCapabilities) (formats : List SurfaceFormat)
    (present_modes : List PresentModeKHR) (window_size : Extent2D)
    (swapchain_images : List Nat) :
    Option (SwapchainCreateInfo × List VkImageView) :=
  match formats.head?, choose_presentation_mode present_modes with
  | some surface_format, some presentation_mode =>
      some ({ min_image_count := resolve_image_count cap,
              image_format := surface_format.format,
              image_color_space := surface_format.color_space,
              image_extent := resolve_extent cap window_size,
              present_mode := presentation_mode },
            swapchain_images.map fun image =>
              { image := image, format := surface_format.format })
  | _, _ => none

/-! ### The vulkano frame loop (`renderer.rs::run_event_loop`) -/

/-- The `previous_frame_end` slot of `run_event_loop`: either the
already-completed sentinel `vulkano::sync::now(device)` or the fence/flush
future of the generation-`g` submission. -/
inductive PrevFrameEnd
  | nowFuture
  | fenceSignalFuture (g : Nat)
deriving DecidableEq, Repr

/-- A vulkano swapchain image; selection only uses its dimensions. -/
structure SwapchainImageV where
  dims : Extent2D
deriving DecidableEq, Repr

/-- A framebuffer wrapping the image view of one swapchain image
(`renderer.rs:283-287`). -/
structure FramebufferV where
  image : SwapchainImageV
deriving DecidableEq, Repr

/-- A vulkano swapchain together with its images; the generation counter
distinguishes recreated chains. -/
structure VulkanoChain where
  generation : Nat
  images : List SwapchainImageV
deriving DecidableEq, Repr

/-- The mutable state of `run_event_loop` (`renderer.rs:166-270`):
the `recreate_swapchain` flag, the `previous_frame_end` future, and the
fields of `self` the loop mutates. -/
structure RenderLoopState where
  recreate_swapchain : Bool
  previous_frame_end : PrevFrameEnd
  swap_chain : VulkanoChain
  frame_buffers : List FramebufferV
  viewport : Extent2D
deriving DecidableEq, Repr

/-- `renderer.rs:273-292` (`window_size_dependent_setup`): read the
dimensions of `images[0]` for the viewport (indexing panics on an empty
slice, modelled as `none`), then build one framebuffer per image. -/
def window_size_dependent_setup (images : List SwapchainImageV) :
    Option (Extent2D × List FramebufferV) :=
  match images with
  | [] => none
  | image0 :: _ => some (image0.dims, images.map fun image => { image := image })

/-- Outcome of `self.swap_chain.recreate()...build()`
(`renderer.rs:182-191`). -/
inductive RecreateOutcome
  | ok (chain : VulkanoChain)
  | unsupportedDimensions
  | otherError
deriving DecidableEq, Repr

/-- Outcome of `acquire_next_image` (`renderer.rs:204-215`): an image index
plus the suboptimal flag, out-of-date, or another (fatal) error. -/
inductive AcquireOutcome
  | ok (image_num : Nat) (suboptimal : Bool)
  | outOfDate
  | otherError
deriving DecidableEq, Repr

/-- Outcome of `then_signal_fence_and_flush` (`renderer.rs:252-266`). -/
inductive FlushOutcome
  | ok (g : Nat)
  | outOfDate
  | otherError
deriving DecidableEq, Repr

/-- The environment of one `RedrawEventsCleared` iteration: what the Vulkan
driver answers at each fallible call of the iteration. -/
structure FrameEnv where
  recreate : RecreateOutcome
  acquire : AcquireOutcome
  flush : FlushOutcome
deriving DecidableEq, Repr

/-- Observable actions of one loop iteration, in program order. -/
inductive FrameAction
  | cleanupFinished
  | recreateAttempt
  | acquireAttempt
  | record (image_num : Nat)
  | submitPresent
  | logFlushError
  | panicked
deriving DecidableEq, Repr

/-- `renderer.rs:203-266`: the part of the iteration from
`acquire_next_image` on.  On out-of-date the flag is set and the iteration
returns; on another acquire error the code panics; otherwise the suboptimal
flag may set `recreate_swapchain`, one command buffer is recorded, and the
submit/present chain is flushed with the three outcomes of
`renderer.rs:252-266`. -/
def acquire_and_draw (st : RenderLoopState) (env : FrameEnv)
    (tr : List FrameAction) : RenderLoopState × List FrameAction :=
  match env.acquire with
  | .outOfDate => ({ st with recreate_swapchain := true }, tr ++ [.acquireAttempt])
  | .otherError => (st, tr ++ [.acquireAttempt, .panicked])
  | .ok image_num suboptimal =>
    let st1 := if suboptimal then { st with recreate_swapchain := true } else st
    let tr1 := tr ++ [.acquireAttempt, .record image_num]
    match env.flush with
    | .ok g =>
        ({ st1 with previous_frame_end := .fenceSignalFuture g },
         tr1 ++ [.submitPresent])
    | .outOfDate =>
        ({ st1 with recreate_swapchain := true,
                    previous_frame_end := .nowFuture },
         tr1 ++ [.submitPresent])
    | .otherError =>
        ({ st1 with previous_frame_end := .nowFuture },
         tr1 ++ [.submitPresent, .logFlushError])

/-- `renderer.rs:177-267`: one full `RedrawEventsCleared` iteration.
`cleanup_finished` runs first; when `recreate_swapchain` is set the chain is
recreated (returning early on `UnsupportedDimensions`, panicking on other
errors, and otherwise installing the new chain, rebuilding the framebuffers
via `window_size_dependent_setup`, and clearing the flag); then the
iteration continues with acquire/record/submit. -/
def redraw_events_cleared (st : RenderLoopState) (env : FrameEnv) :
    RenderLoopState × List FrameAction :=
  let tr : List FrameAction := [.cleanupFinished]
  if st.recreate_swapchain then
    match env.recreate with
    | .unsupportedDimensions => (st, tr ++ [.recreateAttempt])
    | .otherError => (st, tr ++ [.recreateAttempt, .panicked])
    | .ok new_chain =>
      match window_size_dependent_setup new_chain.images with
      | none =>
          ({ st with swap_chain := new_chain }, tr ++ [.recreateAttempt, .panicked])
      | some (vp, fbs) =>
          acquire_and_draw
            { st with swap_chain := new_chain, frame_buffers := fbs,
                      viewport := vp, recreate_swapchain := false }
            env (tr ++ [.recreateAttempt])
  else acquire_and_draw st env tr

/-- An iteration reaches `acquire_next_image` iff the flag is clear or the
recreation succeeds with a nonempty image list (an empty list would panic in
`window_size_dependent_setup`'s `unwrap`). -/
def reaches_acquire (st : RenderLoopState) (env : FrameEnv) : Prop :=
  st.recreate_swapchain = false ∨
    ∃ chain, env.recreate = .ok chain ∧ chain.images ≠ []

/-- Invariant of claim C10: the render-target sequence is exactly one
framebuffer per image of the current chain. -/
def targetsInvariant (st : RenderLoopState) : Prop :=
  st.frame_buffers.length = st.swap_chain.images.length

/-! ### Teardown and event dispatch of the ash backend
(`main_loop.rs::shutdown`, `main_loop.rs::main_loop`) -/

/-- One GPU-object destruction call of `main_loop.rs:174-196`. -/
inductive DestroyEvent
  | imageView (v : Nat)
  | swapchainKHR
  | surfaceKHR
  | logicalDevice
  | debugMessenger
  | vkInstance
deriving DecidableEq, Repr

/-- `main_loop.rs:174-196` (`shutdown`): destroy every swapchain image view,
then the swapchain, the surface, the logical device, the debug messenger when
one was installed, and finally the instance. -/
def shutdown (swapchain_image_views : List Nat) (debug_utils_state : Bool) :
    List DestroyEvent :=
  (swapchain_image_views.map fun v => DestroyEvent.imageView v)
    ++ [.swapchainKHR, .surfaceKHR, .logicalDevice]
    ++ (if debug_utils_state then [.debugMessenger] else [])
    ++ [.vkInstance]

/-- Dependency phase of each destruction step: a step must not run before any
step of a strictly smaller phase. -/
def destroyPhase : DestroyEvent → Nat
  | .imageView _ => 0
  | .swapchainKHR => 1
  | .surfaceKHR => 2
  | .logicalDevice => 3
  | .debugMessenger => 4
  | .vkInstance => 5

/-- The winit events the ash `main_loop` closure matches on
(`main_loop.rs:84-108`). -/
inductive AshEvent
  | closeRequested
  | otherWindowEvent
  | mainEventsCleared
  | redrawRequested
  | loopDestroyed
  | otherEvent
deriving DecidableEq, Repr

/-- The winit control-flow value the closure may assign. -/
inductive WinitControlFlow
  | poll
  | exitLoop
deriving DecidableEq, Repr

/-- Observable actions of one dispatch of the ash event closure. -/
inductive AshAction
  | requestRedraw
  | appDraw
  | runShutdown (events : List DestroyEvent)
deriving DecidableEq, Repr

/-- `main_loop.rs:84-108`: the event closure of the ash backend.
`CloseRequested` requests exit; `MainEventsCleared` requests a redraw;
`RedrawRequested` calls `app.draw` and then sets `ControlFlow::Exit`
(the line marked `// todo remove` in the source); `LoopDestroyed` runs
`shutdown`. -/
def main_loop_handle_event (views : List Nat) (dbg : Bool)
    (control_flow : WinitControlFlow) :
    AshEvent → WinitControlFlow × List AshAction
  | .closeRequested => (.exitLoop, [])
  | .otherWindowEvent => (control_flow, [])
  | .mainEventsCleared => (control_flow, [.requestRedraw])
  | .redrawRequested => (.exitLoop, [.appDraw])
  | .loopDestroyed => (control_flow, [.runShutdown (shutdown views dbg)])
  | .otherEvent => (control_flow, [])

/-! ## Theorems -/

/-- Claim C2 as stated is refuted by the vulkano backend
(`renderer.rs:110-117`): with `min_image_count = 2` and an unbounded
maximum it requests `2.clamp(2, u32::MAX) = 2` images, not the claimed
`min_image_count + 1 = 3`. -/
theorem swapchain_image_count_counterexample :
    renderer_new_num_images 2 none = 2 ∧
    renderer_new_num_images 2 none ≠ 2 + 1 := by
  decide

/-- Claim C2 (amended): in the ash backend (`create_swapchain`,
`main_loop.rs:336-340`), whenever `min_image_count + 1` does not overflow
`u32`, the resolved image count is `min_image_count + 1` when the reported
maximum is zero (unbounded) and `min (min_image_count + 1) max_image_count`
when it is nonzero — in particular min=2, max=0 resolves to 3 and min=2,
max=2 resolves to 2.  The vulkano backend (`renderer.rs:110-117`) instead
requests `2` clamped into `[min_image_count, max_image_count]` (an absent
maximum read as `u32::MAX`): the minimum when `2` is below it, the maximum
when `2` is above it, and `2` itself when in range — in particular min=2
with an unbounded maximum resolves to 2. -/
theorem swapchain_image_count_policy (cap : SurfaceCapabilities)
    (h : cap.min_image_count < U32_MAX) :
    (cap.max_image_count = 0 →
      resolve_image_count cap = cap.min_image_count + 1) ∧
    (cap.max_image_count ≠ 0 →
      resolve_image_count cap =
        min (cap.min_image_count + 1) cap.max_image_count) ∧
    resolve_image_count
      { min_image_count := 2, max_image_count := 0,
        current_extent := ⟨0, 0⟩, min_image_extent := ⟨0, 0⟩,
        max_image_extent := ⟨0, 0⟩ } = 3 ∧
    resolve_image_count
      { min_image_count := 2, max_image_count := 2,
        current_extent := ⟨0, 0⟩, min_image_extent := ⟨0, 0⟩,
        max_image_extent := ⟨0, 0⟩ } = 2 ∧
    (∀ (minc : Nat) (maxc : Option Nat),
      (2 ≤ minc → minc ≤ maxc.getD U32_MAX →
        renderer_new_num_images minc maxc = minc) ∧
      (maxc.getD U32_MAX ≤ 2 → minc ≤ maxc.getD U32_MAX →
        renderer_new_num_images minc maxc = maxc.getD U32_MAX) ∧
      (minc ≤ 2 → 2 ≤ maxc.getD U32_MAX →
        renderer_new_num_images minc maxc = 2)) ∧
    renderer_new_num_images 2 none = 2 := by
  have h' : cap.min_image_count < 4294967295 := h
  have hm : (cap.min_image_count + 1) % 2 ^ 32 = cap.min_image_count + 1 :=
    Nat.mod_eq_of_lt (by omega)
  refine ⟨fun h0 => ?_, fun hne => ?_, by decide, by decide,
    fun minc maxc => ?_, by decide⟩
  · simp only [resolve_image_count, h0]
    simp only [ne_eq, not_true_eq_false, if_false]
    omega
  · simp only [resolve_image_count, ne_eq, hne, not_false_eq_true, if_true]
    omega
  · refine ⟨fun h1 h2 => ?_, fun h1 h2 => ?_, fun h1 h2 => ?_⟩ <;>
      · simp only [renderer_new_num_images, rust_clamp]
        omega

/-- Witness for claim C2: with min_image_count 5 (no `u32` overflow) and an
unbounded surface the ash backend resolves 6 images. -/
theorem swapchain_image_count_policy_witness :
    resolve_image_count
      { min_image_count := 5, max_image_count := 0,
        current_extent := ⟨0, 0⟩, min_image_extent := ⟨0, 0⟩,
        max_image_extent := ⟨0, 0⟩ } = 6 :=
  (swapchain_image_count_policy _ (by decide)).1 rfl

/-- Claim C3: when the surface reports the `u32::MAX` sentinel in both
components of the current extent, the resolved extent is the window size
clamped component-wise into `[min_image_extent, max_image_extent]` — in
bounds, equal to the window size when it is in range, saturating to the
minimum when the window is below it and to the maximum when the window is
above it; otherwise the resolved extent is exactly the reported current
extent and the window size is ignored. -/
theorem swapchain_extent_policy (cap : SurfaceCapabilities) (ws : Extent2D)
    (hw : cap.min_image_extent.width ≤ cap.max_image_extent.width)
    (hh : cap.min_image_extent.height ≤ cap.max_image_extent.height) :
    (cap.current_extent.width = U32_MAX ∧ cap.current_extent.height = U32_MAX →
      cap.min_image_extent.width ≤ (resolve_extent cap ws).width ∧
      (resolve_extent cap ws).width ≤ cap.max_image_extent.width ∧
      cap.min_image_extent.height ≤ (resolve_extent cap ws).height ∧
      (resolve_extent cap ws).height ≤ cap.max_image_extent.height ∧
      (cap.min_image_extent.width ≤ ws.width →
        ws.width ≤ cap.max_image_extent.width →
        (resolve_extent cap ws).width = ws.width) ∧
      (cap.min_image_extent.height ≤ ws.height →
        ws.height ≤ cap.max_image_extent.height →
        (resolve_extent cap ws).height = ws.height) ∧
      (ws.width ≤ cap.min_image_extent.width →
        (resolve_extent cap ws).width = cap.min_image_extent.width) ∧
      (cap.max_image_extent.width ≤ ws.width →
        (resolve_extent cap ws).width = cap.max_image_extent.width) ∧
      (ws.height ≤ cap.min_image_extent.height →
        (resolve_extent cap ws).height = cap.min_image_extent.height) ∧
      (cap.max_image_extent.height ≤ ws.height →
        (resolve_extent cap ws).height = cap.max_image_extent.height)) ∧
    (¬(cap.current_extent.width = U32_MAX ∧
        cap.current_extent.height = U32_MAX) →
      resolve_extent cap ws = cap.current_extent ∧
      ∀ ws', resolve_extent cap ws' = resolve_extent cap ws) := by
  constructor
  · intro hsent
    simp only [resolve_extent, if_pos hsent, rust_clamp]
    refine ⟨?_, ?_, ?_, ?_, ?_, ?_, ?_, ?_, ?_, ?_⟩ <;> omega
  · intro hsent
    exact ⟨by simp [resolve_extent, hsent], fun ws' => by
      simp [resolve_extent, hsent]⟩

/-- Witness for claim C3 at the spec's own example: min extent (100,100),
max extent (1000,1000), sentinel current extent, window (1920,1080) — the
resolved extent saturates to (1000,1000). -/
theorem swapchain_extent_policy_witness :
    (resolve_extent
      { min_image_count := 2, max_image_count := 0,
        current_extent := ⟨U32_MAX, U32_MAX⟩,
        min_image_extent := ⟨100, 100⟩, max_image_extent := ⟨1000, 1000⟩ }
      ⟨1920, 1080⟩).width = 1000 ∧
    (resolve_extent
      { min_image_count := 2, max_image_count := 0,
        current_extent := ⟨U32_MAX, U32_MAX⟩,
        min_image_extent := ⟨100, 100⟩, max_image_extent := ⟨1000, 1000⟩ }
      ⟨1920, 1080⟩).height = 1000 := by
  obtain ⟨h1, h2, h3, h4, h5, h6, h7, h8, h9, h10⟩ := (swapchain_extent_policy
    { min_image_count := 2, max_image_count := 0,
      current_extent := ⟨U32_MAX, U32_MAX⟩,
      min_image_extent := ⟨100, 100⟩, max_image_extent := ⟨1000, 1000⟩ }
    ⟨1920, 1080⟩ (by decide) (by decide)).1 (by decide)
  exact ⟨h8 (by decide), h10 (by decide)⟩

/-- Claim C4: the chosen presentation mode is the first available one in the
priority order FIFO, MAILBOX, FIFO_RELAXED, IMMEDIATE, and otherwise the
first mode of the (nonempty) supported set; in particular
{MAILBOX, IMMEDIATE} yields MAILBOX and {IMMEDIATE} yields IMMEDIATE. -/
theorem presentation_mode_policy (modes : List PresentModeKHR)
    (hne : modes ≠ []) :
    (∃ m, choose_presentation_mode modes = some m ∧
      (PresentModeKHR.FIFO ∈ modes → m = .FIFO) ∧
      (PresentModeKHR.FIFO ∉ modes → PresentModeKHR.MAILBOX ∈ modes →
        m = .MAILBOX) ∧
      (PresentModeKHR.FIFO ∉ modes → PresentModeKHR.MAILBOX ∉ modes →
        PresentModeKHR.FIFO_RELAXED ∈ modes → m = .FIFO_RELAXED) ∧
      (PresentModeKHR.FIFO ∉ modes → PresentModeKHR.MAILBOX ∉ modes →
        PresentModeKHR.FIFO_RELAXED ∉ modes →
        PresentModeKHR.IMMEDIATE ∈ modes → m = .IMMEDIATE) ∧
      (PresentModeKHR.FIFO ∉ modes → PresentModeKHR.MAILBOX ∉ modes →
        PresentModeKHR.FIFO_RELAXED ∉ modes →
        PresentModeKHR.IMMEDIATE ∉ modes → modes.head? = some m)) ∧
    choose_presentation_mode [.MAILBOX, .IMMEDIATE] = some .MAILBOX ∧
    choose_presentation_mode [.IMMEDIATE] = some .IMMEDIATE := by
  refine ⟨?_, by decide, by decide⟩
  by_cases h1 : PresentModeKHR.FIFO ∈ modes
  · exact ⟨.FIFO, by simp [choose_presentation_mode, h1], fun _ => rfl,
      fun h _ => absurd h1 h, fun h _ _ => absurd h1 h,
      fun h _ _ _ => absurd h1 h, fun h _ _ _ => absurd h1 h⟩
  by_cases h2 : PresentModeKHR.MAILBOX ∈ modes
  · exact ⟨.MAILBOX, by simp [choose_presentation_mode, h1, h2],
      fun h => absurd h h1, fun _ _ => rfl, fun _ h _ => absurd h2 h,
      fun _ h _ _ => absurd h2 h, fun _ h _ _ => absurd h2 h⟩
  by_cases h3 : PresentModeKHR.FIFO_RELAXED ∈ modes
  · exact ⟨.FIFO_RELAXED, by simp [choose_presentation_mode, h1, h2, h3],
      fun h => absurd h h1, fun _ h => absurd h h2, fun _ _ _ => rfl,
      fun _ _ h _ => absurd h3 h, fun _ _ h _ => absurd h3 h⟩
  by_cases h4 : PresentModeKHR.IMMEDIATE ∈ modes
  · exact ⟨.IMMEDIATE, by simp [choose_presentation_mode, h1, h2, h3, h4],
      fun h => absurd h h1, fun _ h => absurd h h2, fun _ _ h => absurd h h3,
      fun _ _ _ _ => rfl, fun _ _ _ h => absurd h4 h⟩
  · obtain ⟨m, hm⟩ : ∃ m, modes.head? = some m := by
      cases modes with
      | nil => exact absurd rfl hne
      | cons x xs => exact ⟨x, rfl⟩
    exact ⟨m, by simp [choose_presentation_mode, h1, h2, h3, h4, hm],
      fun h => absurd h h1, fun _ h => absurd h h2, fun _ _ h => absurd h h3,
      fun _ _ _ h => absurd h h4, fun _ _ _ _ => hm⟩

/-- Witness for claim C4 at the supported set {MAILBOX, IMMEDIATE}. -/
theorem presentation_mode_policy_witness :
    ([PresentModeKHR.MAILBOX, PresentModeKHR.IMMEDIATE] ≠ []) ∧
    ((∃ m, choose_presentation_mode [.MAILBOX, .IMMEDIATE] = some m ∧
      (PresentModeKHR.FIFO ∈ [PresentModeKHR.MAILBOX, PresentModeKHR.IMMEDIATE] → m = .FIFO) ∧
      (PresentModeKHR.FIFO ∉ [PresentModeKHR.MAILBOX, PresentModeKHR.IMMEDIATE] →
        PresentModeKHR.MAILBOX ∈ [PresentModeKHR.MAILBOX, PresentModeKHR.IMMEDIATE] → m = .MAILBOX) ∧
      (PresentModeKHR.FIFO ∉ [PresentModeKHR.MAILBOX, PresentModeKHR.IMMEDIATE] →
        PresentModeKHR.MAILBOX ∉ [PresentModeKHR.MAILBOX, PresentModeKHR.IMMEDIATE] →
        PresentModeKHR.FIFO_RELAXED ∈ [PresentModeKHR.MAILBOX, PresentModeKHR.IMMEDIATE] → m = .FIFO_RELAXED) ∧
      (PresentModeKHR.FIFO ∉ [PresentModeKHR.MAILBOX, PresentModeKHR.IMMEDIATE] →
        PresentModeKHR.MAILBOX ∉ [PresentModeKHR.MAILBOX, PresentModeKHR.IMMEDIATE] →
        PresentModeKHR.FIFO_RELAXED ∉ [PresentModeKHR.MAILBOX, PresentModeKHR.IMMEDIATE] →
        PresentModeKHR.IMMEDIATE ∈ [PresentModeKHR.MAILBOX, PresentModeKHR.IMMEDIATE] → m = .IMMEDIATE) ∧
      (PresentModeKHR.FIFO ∉ [PresentModeKHR.MAILBOX, PresentModeKHR.IMMEDIATE] →
        PresentModeKHR.MAILBOX ∉ [PresentModeKHR.MAILBOX, PresentModeKHR.IMMEDIATE] →
        PresentModeKHR.FIFO_RELAXED ∉ [PresentModeKHR.MAILBOX, PresentModeKHR.IMMEDIATE] →
        PresentModeKHR.IMMEDIATE ∉ [PresentModeKHR.MAILBOX, PresentModeKHR.IMMEDIATE] →
        ([PresentModeKHR.MAILBOX, PresentModeKHR.IMMEDIATE] : List PresentModeKHR).head? = some m)) ∧
      choose_presentation_mode [.MAILBOX, .IMMEDIATE] = some .MAILBOX ∧
      choose_presentation_mode [.IMMEDIATE] = some .IMMEDIATE) :=
  ⟨by decide, presentation_mode_policy [.MAILBOX, .IMMEDIATE] (by decide)⟩

/-- Claim C9 is refuted by the code: in the ash backend the event closure
handles `RedrawRequested` by calling `app.draw` and then immediately setting
`ControlFlow::Exit` (the line `main_loop.rs:92`, marked `// todo remove`), so
a successfully drawn frame itself triggers loop exit without any external
stop signal. -/
theorem redraw_requested_exits_loop :
    main_loop_handle_event [] false .poll .redrawRequested =
      (.exitLoop, [.appDraw]) := rfl

/-- Claim C8: teardown destroys objects in nondecreasing dependency phase
(render targets, then swapchain, surface, device, optional debug messenger,
and finally the instance), each singleton object exactly once, all image
views exactly as listed, and the event closure only ever runs this one
destruction sequence, whatever event or control-flow value triggered it. -/
theorem teardown_order (views : List Nat) (dbg : Bool) :
    ((shutdown views dbg).Pairwise fun a b => destroyPhase a ≤ destroyPhase b) ∧
    (shutdown views dbg).filter (fun e => destroyPhase e == 0) =
      (views.map fun v => DestroyEvent.imageView v) ∧
    (shutdown views dbg).count .swapchainKHR = 1 ∧
    (shutdown views dbg).count .surfaceKHR = 1 ∧
    (shutdown views dbg).count .logicalDevice = 1 ∧
    (shutdown views dbg).count .debugMessenger = (if dbg then 1 else 0) ∧
    (shutdown views dbg).count .vkInstance = 1 ∧
    (∀ cf e sevs, AshAction.runShutdown sevs ∈
        (main_loop_handle_event views dbg cf e).2 → sevs = shutdown views dbg) := by
  have hviews : ∀ x ∈ views.map fun v => DestroyEvent.imageView v,
      destroyPhase x = 0 := by
    intro x hx
    obtain ⟨v, _, rfl⟩ := List.mem_map.mp hx
    rfl
  have hnotmem : ∀ d : DestroyEvent, destroyPhase d ≠ 0 →
      d ∉ views.map fun v => DestroyEvent.imageView v := by
    intro d hd hmem
    exact hd (hviews d hmem)
  have hcnt : ∀ d : DestroyEvent, destroyPhase d ≠ 0 → ∀ rest : List DestroyEvent,
      List.count d ((views.map fun v => DestroyEvent.imageView v) ++ rest) =
        List.count d rest := by
    intro d hd rest
    rw [List.count_append, List.count_eq_zero.mpr (hnotmem d hd), Nat.zero_add]
  simp only [shutdown]
  refine ⟨?_, ?_, ?_, ?_, ?_, ?_, ?_, ?_⟩
  · rw [List.append_assoc, List.append_assoc, List.pairwise_append]
    refine ⟨List.pairwise_map.mpr
      (List.pairwise_of_forall fun _ _ => by simp [destroyPhase]), ?_, ?_⟩
    · cases dbg <;> decide
    · intro a ha b _
      rw [hviews a ha]
      exact Nat.zero_le _
  · rw [List.append_assoc, List.append_assoc, List.filter_append,
      List.filter_eq_self.mpr fun a ha => by simp [hviews a ha]]
    have hrest : List.filter (fun e => destroyPhase e == 0)
        ([DestroyEvent.swapchainKHR, .surfaceKHR, .logicalDevice] ++
          ((if dbg = true then [DestroyEvent.debugMessenger] else []) ++
            [DestroyEvent.vkInstance])) = [] := by
      cases dbg <;> decide
    rw [hrest, List.append_nil]
  · rw [List.append_assoc, List.append_assoc, hcnt _ (by decide)]
    cases dbg <;> decide
  · rw [List.append_assoc, List.append_assoc, hcnt _ (by decide)]
    cases dbg <;> decide
  · rw [List.append_assoc, List.append_assoc, hcnt _ (by decide)]
    cases dbg <;> decide
  · rw [List.append_assoc, List.append_assoc, hcnt _ (by decide)]
    cases dbg <;> decide
  · rw [List.append_assoc, List.append_assoc, hcnt _ (by decide)]
    cases dbg <;> decide
  · intro cf e sevs h
    cases e <;> simp [main_loop_handle_event] at h
    exact h

/-- Witness for claim C8: the one destruction sequence the event closure can
run for a single image view with a debug messenger installed. -/
theorem teardown_order_witness :
    [DestroyEvent.imageView 7, DestroyEvent.swapchainKHR,
      DestroyEvent.surfaceKHR, DestroyEvent.logicalDevice,
      DestroyEvent.debugMessenger, DestroyEvent.vkInstance] =
      shutdown [7] true :=
  (teardown_order [7] true).2.2.2.2.2.2.2 .poll .loopDestroyed _ (by decide)

/-! ### Helper lemmas about one frame-loop iteration -/

/-- On an out-of-date acquire result the iteration only sets the flag and
stops after the acquire attempt. -/
theorem acquire_and_draw_outOfDate_spec (st : RenderLoopState) (env : FrameEnv)
    (tr : List FrameAction) (ha : env.acquire = .outOfDate) :
    acquire_and_draw st env tr =
      ({ st with recreate_swapchain := true },
       tr ++ [FrameAction.acquireAttempt]) := by
  simp [acquire_and_draw, ha]

/-- On a suboptimal acquire result the flag is set and the frame is still
recorded and submitted, whatever the flush outcome. -/
theorem acquire_and_draw_suboptimal_spec (st : RenderLoopState)
    (env : FrameEnv) (tr : List FrameAction) (n : Nat)
    (ha : env.acquire = .ok n true) :
    (acquire_and_draw st env tr).1.recreate_swapchain = true ∧
    FrameAction.record n ∈ (acquire_and_draw st env tr).2 ∧
    FrameAction.submitPresent ∈ (acquire_and_draw st env tr).2 := by
  rcases hf : env.flush with g | _ | _ <;> simp [acquire_and_draw, ha, hf]

/-- `acquire_and_draw` never touches the chain or the framebuffers. -/
theorem acquire_and_draw_preserves_chain (st : RenderLoopState)
    (env : FrameEnv) (tr : List FrameAction) :
    (acquire_and_draw st env tr).1.swap_chain = st.swap_chain ∧
    (acquire_and_draw st env tr).1.frame_buffers = st.frame_buffers := by
  rcases ha : env.acquire with ⟨n, subopt⟩ | _ | _ <;>
    rcases hf : env.flush with g | _ | _ <;>
    first
      | (cases subopt <;> simp [acquire_and_draw, ha, hf])
      | simp [acquire_and_draw, ha, hf]

/-- The acquire attempt happens in every run of `acquire_and_draw`. -/
theorem acquire_and_draw_attempts (st : RenderLoopState) (env : FrameEnv)
    (tr : List FrameAction) :
    FrameAction.acquireAttempt ∈ (acquire_and_draw st env tr).2 := by
  rcases ha : env.acquire with ⟨n, subopt⟩ | _ | _ <;>
    rcases hf : env.flush with g | _ | _ <;>
    first
      | (cases subopt <;> simp [acquire_and_draw, ha, hf])
      | simp [acquire_and_draw, ha, hf]

/-- Starting from a clear flag, `acquire_and_draw` ends with the flag set
only because of an out-of-date acquire, a suboptimal acquire, or an
out-of-date flush. -/
theorem acquire_and_draw_flag_sources (st : RenderLoopState) (env : FrameEnv)
    (tr : List FrameAction) (h : st.recreate_swapchain = false)
    (hres : (acquire_and_draw st env tr).1.recreate_swapchain = true) :
    env.acquire = .outOfDate ∨ (∃ n, env.acquire = .ok n true) ∨
      env.flush = .outOfDate := by
  rcases ha : env.acquire with ⟨n, subopt⟩ | _ | _
  · cases subopt
    · rcases hf : env.flush with g | _ | _
      · rw [acquire_and_draw, ha, hf] at hres
        simp [h] at hres
      · exact Or.inr (Or.inr rfl)
      · rw [acquire_and_draw, ha, hf] at hres
        simp [h] at hres
    · exact Or.inr (Or.inl ⟨n, rfl⟩)
  · exact Or.inl rfl
  · rw [acquire_and_draw, ha] at hres
    simp [h] at hres

/-- The three flush outcomes of `renderer.rs:252-266`, given a successful
acquire: the new fence future is stored on success; out-of-date sets the
flag and resets to the `now` sentinel; any other error logs and resets to
the `now` sentinel. -/
theorem acquire_and_draw_flush_cases (st : RenderLoopState) (env : FrameEnv)
    (tr : List FrameAction) (n : Nat) (subopt : Bool)
    (ha : env.acquire = .ok n subopt) :
    (∀ g, env.flush = .ok g →
      (acquire_and_draw st env tr).1.previous_frame_end =
        .fenceSignalFuture g ∧
      (acquire_and_draw st env tr).2 = tr ++
        [FrameAction.acquireAttempt, FrameAction.record n,
         FrameAction.submitPresent]) ∧
    (env.flush = .outOfDate →
      (acquire_and_draw st env tr).1.recreate_swapchain = true ∧
      (acquire_and_draw st env tr).1.previous_frame_end = .nowFuture ∧
      (acquire_and_draw st env tr).2 = tr ++
        [FrameAction.acquireAttempt, FrameAction.record n,
         FrameAction.submitPresent]) ∧
    (env.flush = .otherError →
      (acquire_and_draw st env tr).1.previous_frame_end = .nowFuture ∧
      (acquire_and_draw st env tr).2 = tr ++
        [FrameAction.acquireAttempt, FrameAction.record n,
         FrameAction.submitPresent, FrameAction.logFlushError]) := by
  refine ⟨fun g hf => ?_, fun hf => ?_, fun hf => ?_⟩ <;>
    cases subopt <;> simp [acquire_and_draw, ha, hf]

/-- When an iteration reaches the acquire step (clear flag, or successful
recreation with a nonempty image list) it is `acquire_and_draw` run after
the bookkeeping prefix of the iteration. -/
theorem redraw_reaches_acquire (st : RenderLoopState) (env : FrameEnv)
    (h : reaches_acquire st env) :
    ∃ st' tr', redraw_events_cleared st env = acquire_and_draw st' env tr' ∧
      st'.recreate_swapchain = false ∧
      ((tr' = [FrameAction.cleanupFinished] ∧ st' = st) ∨
        (tr' = [FrameAction.cleanupFinished, FrameAction.recreateAttempt] ∧
          ∃ chain, env.recreate = .ok chain ∧ st'.swap_chain = chain ∧
            st'.frame_buffers =
              chain.images.map fun image => { image := image })) := by
  rcases hsw : st.recreate_swapchain with _ | _
  · exact ⟨st, [FrameAction.cleanupFinished],
      by simp [redraw_events_cleared, hsw], hsw, Or.inl ⟨rfl, rfl⟩⟩
  · rcases h with hflag | ⟨chain, hrec, hne⟩
    · rw [hsw] at hflag
      cases hflag
    · obtain ⟨i0, rest, himg⟩ := List.exists_cons_of_ne_nil hne
      refine ⟨{ st with
          swap_chain := chain,
          frame_buffers := chain.images.map (fun image => { image := image }),
          viewport := i0.dims,
          recreate_swapchain := false },
        [FrameAction.cleanupFinished, FrameAction.recreateAttempt], ?_, rfl,
        Or.inr ⟨rfl, chain, hrec, rfl, rfl⟩⟩
      simp [redraw_events_cleared, hsw, hrec, himg, window_size_dependent_setup]

/-- Claim C5: in an iteration that reaches image acquisition, an
out-of-date acquire result sets the resize flag and skips the rest of the
iteration (nothing recorded, submitted, or presented), while a suboptimal
acquire result sets the flag but the current frame is still recorded and
submitted/presented. -/
theorem acquire_failure_policy (st : RenderLoopState) (env : FrameEnv)
    (h : reaches_acquire st env) :
    (env.acquire = .outOfDate →
      (redraw_events_cleared st env).1.recreate_swapchain = true ∧
      (∀ n, FrameAction.record n ∉ (redraw_events_cleared st env).2) ∧
      FrameAction.submitPresent ∉ (redraw_events_cleared st env).2) ∧
    (∀ n, env.acquire = .ok n true →
      (redraw_events_cleared st env).1.recreate_swapchain = true ∧
      FrameAction.record n ∈ (redraw_events_cleared st env).2 ∧
      FrameAction.submitPresent ∈ (redraw_events_cleared st env).2) := by
  obtain ⟨st', tr', heq, hflag', htr⟩ := redraw_reaches_acquire st env h
  rw [heq]
  constructor
  · intro ha
    rw [acquire_and_draw_outOfDate_spec st' env tr' ha]
    rcases htr with ⟨rfl, _⟩ | ⟨rfl, _⟩ <;> simp
  · intro n ha
    exact acquire_and_draw_suboptimal_spec st' env tr' n ha

/-- Witness for claim C5: with a clear flag and an out-of-date acquire
answer, the iteration ends with the resize flag set. -/
theorem acquire_failure_policy_witness :
    (redraw_events_cleared
      { recreate_swapchain := false,
        previous_frame_end := .nowFuture,
        swap_chain := { generation := 0, images := [] },
        frame_buffers := [],
        viewport := ⟨0, 0⟩ }
      { recreate := .unsupportedDimensions, acquire := .outOfDate,
        flush := .ok 0 }).1.recreate_swapchain = true :=
  ((acquire_failure_policy _ _ (Or.inl rfl)).1 rfl).1

/-- Claim C6: in an iteration that begins with the resize flag set,
recreation failing with `UnsupportedDimensions` leaves the whole state
(flag and chain included) unchanged and skips the rest of the iteration,
while successful recreation installs the new chain, continues into the
acquire step, and leaves the flag clear unless the acquire or flush outcome
of the same iteration sets it again. -/
theorem resize_recreation_policy (st : RenderLoopState) (env : FrameEnv)
    (h : st.recreate_swapchain = true) :
    (env.recreate = .unsupportedDimensions →
      redraw_events_cleared st env =
        (st, [FrameAction.cleanupFinished, FrameAction.recreateAttempt])) ∧
    (∀ chain, env.recreate = .ok chain → chain.images ≠ [] →
      (redraw_events_cleared st env).1.swap_chain = chain ∧
      FrameAction.acquireAttempt ∈ (redraw_events_cleared st env).2 ∧
      ((redraw_events_cleared st env).1.recreate_swapchain = true →
        env.acquire = .outOfDate ∨ (∃ n, env.acquire = .ok n true) ∨
          env.flush = .outOfDate)) := by
  constructor
  · intro hrec
    simp [redraw_events_cleared, h, hrec]
  · intro chain hrec hne
    obtain ⟨st', tr', heq, hflag', htr⟩ :=
      redraw_reaches_acquire st env (Or.inr ⟨chain, hrec, hne⟩)
    rw [heq]
    have hchain : st'.swap_chain = chain := by
      rcases htr with ⟨_, rfl⟩ | ⟨_, c, hrec', hc, _⟩
      · rw [h] at hflag'
        cases hflag'
      · rw [hc]
        rw [hrec] at hrec'
        exact (RecreateOutcome.ok.injEq _ _).mp hrec'.symm ▸ rfl
    refine ⟨?_, acquire_and_draw_attempts st' env tr',
      acquire_and_draw_flag_sources st' env tr' hflag'⟩
    rw [(acquire_and_draw_preserves_chain st' env tr').1, hchain]

/-- Witness for claim C6: with the flag set and an unsupported-dimensions
answer, the iteration returns the state unchanged. -/
theorem resize_recreation_policy_witness :
    redraw_events_cleared
      { recreate_swapchain := true,
        previous_frame_end := .nowFuture,
        swap_chain := { generation := 3, images := [] },
        frame_buffers := [],
        viewport := ⟨0, 0⟩ }
      { recreate := .unsupportedDimensions, acquire := .outOfDate,
        flush := .ok 0 } =
      ({ recreate_swapchain := true,
         previous_frame_end := .nowFuture,
         swap_chain := { generation := 3, images := [] },
         frame_buffers := [],
         viewport := ⟨0, 0⟩ },
       [FrameAction.cleanupFinished, FrameAction.recreateAttempt]) :=
  (resize_recreation_policy _ _ rfl).1 rfl

/-- Claim C7: for an iteration whose acquire succeeded, a successful flush
stores the new completion signal as the next previous-frame state; an
out-of-date flush sets the resize flag and resets the previous-frame state
to the completed `now` sentinel; any other flush failure is logged, is not
fatal (no panic), and likewise resets to the completed sentinel. -/
theorem submission_outcome_policy (st : RenderLoopState) (env : FrameEnv)
    (h : reaches_acquire st env) (n : Nat) (subopt : Bool)
    (ha : env.acquire = .ok n subopt) :
    (∀ g, env.flush = .ok g →
      (redraw_events_cleared st env).1.previous_frame_end =
        .fenceSignalFuture g) ∧
    (env.flush = .outOfDate →
      (redraw_events_cleared st env).1.recreate_swapchain = true ∧
      (redraw_events_cleared st env).1.previous_frame_end = .nowFuture) ∧
    (env.flush = .otherError →
      FrameAction.logFlushError ∈ (redraw_events_cleared st env).2 ∧
      FrameAction.panicked ∉ (redraw_events_cleared st env).2 ∧
      (redraw_events_cleared st env).1.previous_frame_end = .nowFuture) := by
  obtain ⟨st', tr', heq, hflag', htr⟩ := redraw_reaches_acquire st env h
  rw [heq]
  obtain ⟨hok, hood, herr⟩ :=
    acquire_and_draw_flush_cases st' env tr' n subopt ha
  refine ⟨fun g hg => (hok g hg).1,
    fun hf => ⟨(hood hf).1, (hood hf).2.1⟩, fun hf => ?_⟩
  obtain ⟨hprev, htrace⟩ := herr hf
  rw [htrace]
  rcases htr with ⟨rfl, _⟩ | ⟨rfl, _⟩ <;>
    exact ⟨by simp, by simp, hprev⟩

/-- Witness for claim C7: with a clear flag, a successful acquire and a
successful flush of generation 5, the new fence future is stored. -/
theorem submission_outcome_policy_witness :
    (redraw_events_cleared
      { recreate_swapchain := false,
        previous_frame_end := .nowFuture,
        swap_chain := { generation := 0, images := [] },
        frame_buffers := [],
        viewport := ⟨0, 0⟩ }
      { recreate := .unsupportedDimensions, acquire := .ok 0 false,
        flush := .ok 5 }).1.previous_frame_end =
      PrevFrameEnd.fenceSignalFuture 5 :=
  (submission_outcome_policy _ _ (Or.inl rfl) 0 false rfl).1 5 rfl

/-- Claim C10: one render target is built per swapchain image — the target
list built at (re)creation has exactly the chain's image count in both
backends — and the equality between target count and image count is an
invariant of the frame-loop iteration (on every non-panicking run). -/
theorem render_target_count_invariant :
    (∀ images vp fbs, window_size_dependent_setup images = some (vp, fbs) →
      fbs.length = images.length) ∧
    (∀ cap formats present_modes window_size swapchain_images info views,
      create_swapchain cap formats present_modes window_size
        swapchain_images = some (info, views) →
      views.length = swapchain_images.length) ∧
    (∀ st env, targetsInvariant st →
      FrameAction.panicked ∉ (redraw_events_cleared st env).2 →
      targetsInvariant (redraw_events_cleared st env).1) := by
  refine ⟨?_, ?_, ?_⟩
  · intro images vp fbs hsetup
    cases images with
    | nil => simp [window_size_dependent_setup] at hsetup
    | cons i0 rest =>
      simp only [window_size_dependent_setup, Option.some.injEq,
        Prod.mk.injEq] at hsetup
      rw [← hsetup.2]
      simp
  · intro cap formats present_modes window_size swapchain_images info views h
    cases hfmt : formats.head? with
    | none => simp [create_swapchain, hfmt] at h
    | some fmt =>
      cases hpm : choose_presentation_mode present_modes with
      | none => simp [create_swapchain, hfmt, hpm] at h
      | some pm =>
        simp only [create_swapchain, hfmt, hpm, Option.some.injEq,
          Prod.mk.injEq] at h
        rw [← h.2]
        simp
  · intro st env hinv hpan
    rcases hsw : st.recreate_swapchain with _ | _
    · have heq : redraw_events_cleared st env =
          acquire_and_draw st env [FrameAction.cleanupFinished] := by
        simp [redraw_events_cleared, hsw]
      rw [heq] at hpan ⊢
      have hpres := acquire_and_draw_preserves_chain st env
        [FrameAction.cleanupFinished]
      simp only [targetsInvariant, hpres.1, hpres.2]
      exact hinv
    · rcases hrec : env.recreate with chain | _ | _
      · rcases himg : chain.images with _ | ⟨i0, rest⟩
        · have : redraw_events_cleared st env =
              ({ st with swap_chain := chain },
               [FrameAction.cleanupFinished, FrameAction.recreateAttempt,
                FrameAction.panicked]) := by
            simp [redraw_events_cleared, hsw, hrec, himg,
              window_size_dependent_setup]
          rw [this] at hpan
          simp at hpan
        · have heq : redraw_events_cleared st env = acquire_and_draw
              { st with
                swap_chain := chain,
                frame_buffers :=
                  chain.images.map (fun image => { image := image }),
                viewport := i0.dims,
                recreate_swapchain := false }
              env [FrameAction.cleanupFinished,
                FrameAction.recreateAttempt] := by
            simp [redraw_events_cleared, hsw, hrec, himg,
              window_size_dependent_setup]
          rw [heq]
          have hpres := acquire_and_draw_preserves_chain
            { st with
              swap_chain := chain,
              frame_buffers :=
                chain.images.map (fun image => { image := image }),
              viewport := i0.dims,
              recreate_swapchain := false }
            env [FrameAction.cleanupFinished, FrameAction.recreateAttempt]
          simp only [targetsInvariant, hpres.1, hpres.2]
          simp
      · have : redraw_events_cleared st env =
            (st, [FrameAction.cleanupFinished,
              FrameAction.recreateAttempt]) := by
          simp [redraw_events_cleared, hsw, hrec]
        rw [this]
        exact hinv
      · have : redraw_events_cleared st env =
            (st, [FrameAction.cleanupFinished, FrameAction.recreateAttempt,
              FrameAction.panicked]) := by
          simp [redraw_events_cleared, hsw, hrec]
        rw [this]
        exact hinv

/-- Witness for claim C10: the invariant is preserved across a concrete
non-panicking iteration. -/
theorem render_target_count_invariant_witness :
    targetsInvariant (redraw_events_cleared
      { recreate_swapchain := false,
        previous_frame_end := .nowFuture,
        swap_chain := { generation := 0, images := [⟨⟨2, 2⟩⟩] },
        frame_buffers := [{ image := ⟨⟨2, 2⟩⟩ }],
        viewport := ⟨2, 2⟩ }
      { recreate := .unsupportedDimensions, acquire := .ok 0 false,
        flush := .ok 1 }).1 :=
  render_target_count_invariant.2.2 _ _ rfl (by decide)

/-! ### Helper lemmas for device selection -/

/-- The head of a list stable-sorted by a numeric key is a minimal-key
element, and every element enumerated before it has a strictly larger key. -/
theorem head?_mergeSort_key (key : α → Nat) (l : List α) (hl : l ≠ []) :
    ∃ sel i, (l.mergeSort fun a b => key a ≤ key b).head? = some sel ∧
      l[i]? = some sel ∧ (∀ b ∈ l, key sel ≤ key b) ∧
      (∀ (j : Nat) (b : α), j < i → l[j]? = some b → key sel < key b) := by
  set le : α → α → Bool := fun a b => decide (key a ≤ key b) with hledef
  have htrans : ∀ a b c : α, le a b → le b c → le a c := by
    intro a b c hab hbc
    simp only [hledef, decide_eq_true_eq] at hab hbc ⊢
    omega
  have htotal : ∀ a b : α, le a b || le b a := by
    intro a b
    simp only [hledef, Bool.or_eq_true, decide_eq_true_eq]
    omega
  have hmap : (List.mergeSort (l.enum) (List.enumLE le)).map (fun p => p.2) =
      l.mergeSort le := List.mergeSort_enum
  have hne : List.mergeSort (l.enum) (List.enumLE le) ≠ [] := by
    intro hnil
    have hlen := congrArg List.length hnil
    simp only [List.length_mergeSort, List.enum_length, List.length_nil] at hlen
    exact hl (List.length_eq_zero.mp hlen)
  obtain ⟨p, t, hpt⟩ := List.exists_cons_of_ne_nil hne
  have hperm := List.mergeSort_perm (l.enum) (List.enumLE le)
  have hpair := List.sorted_mergeSort
    (List.enumLE_trans htrans) (List.enumLE_total htotal) (l.enum)
  obtain ⟨i, sel⟩ := p
  have hA : ∀ q ∈ l.enum, List.enumLE le (i, sel) q = true := by
    intro q hq
    have hq' : q ∈ (i, sel) :: t := by
      rw [← hpt]
      exact hperm.mem_iff.mpr hq
    rcases List.mem_cons.mp hq' with rfl | hq''
    · simp [List.enumLE, hledef]
    · rw [hpt] at hpair
      exact List.rel_of_pairwise_cons hpair hq''
  have hB : ∀ j b, (j, b) ∈ l.enum →
      key sel ≤ key b ∧ (key b ≤ key sel → i ≤ j) := by
    intro j b hmem
    have h := hA (j, b) hmem
    simp only [List.enumLE, hledef] at h
    by_cases hc1 : key sel ≤ key b
    · refine ⟨hc1, fun hc2 => ?_⟩
      simp [hc1, hc2] at h
      exact h
    · simp [hc1] at h
  refine ⟨sel, i, ?_, ?_, ?_, ?_⟩
  · rw [← hmap, hpt]
    rfl
  · have hm : (i, sel) ∈ l.enum := by
      rw [← hperm.mem_iff, hpt]
      exact List.mem_cons_self _ _
    exact List.mk_mem_enum_iff_getElem?.mp hm
  · intro b hb
    obtain ⟨j, hj⟩ := List.mem_iff_getElem?.mp hb
    exact (hB j b (List.mk_mem_enum_iff_getElem?.mpr hj)).1
  · intro j b hji hj
    have h := hB j b (List.mk_mem_enum_iff_getElem?.mpr hj)
    by_cases hc : key b ≤ key sel
    · exact absurd (h.2 hc) (by omega)
    · omega

/-- Characterization of the `min_by_key` fold: the result is in the list, has
a minimal key, and every element enumerated before it has a strictly larger
key (ties keep the earliest element). -/
theorem min_by_key_go_spec (key : α → Nat) (ys : List α) :
    ∀ acc : α, ∃ i,
      (acc :: ys)[i]? = some (min_by_key_go key acc ys) ∧
      (∀ b ∈ acc :: ys, key (min_by_key_go key acc ys) ≤ key b) ∧
      (∀ (j : Nat) (b : α), j < i → (acc :: ys)[j]? = some b →
        key (min_by_key_go key acc ys) < key b) := by
  induction ys with
  | nil =>
    intro acc
    refine ⟨0, rfl, ?_, ?_⟩
    · intro b hb
      simp only [List.mem_singleton] at hb
      subst hb
      exact Nat.le_refl _
    · intro j b hj _
      omega
  | cons y ys ih =>
    intro acc
    obtain ⟨i', h1, h2, h3⟩ := ih (if key y < key acc then y else acc)
    simp only [min_by_key_go]
    by_cases hy : key y < key acc
    · rw [if_pos hy] at h1 h2 h3 ⊢
      refine ⟨i' + 1, ?_, ?_, ?_⟩
      · simpa using h1
      · intro b hb
        rcases List.mem_cons.mp hb with rfl | hb'
        · have := h2 y (List.mem_cons_self _ _)
          omega
        · exact h2 b hb'
      · intro j b hj hjb
        cases j with
        | zero =>
          simp only [List.getElem?_cons_zero, Option.some.injEq] at hjb
          subst hjb
          have := h2 y (List.mem_cons_self _ _)
          omega
        | succ j' =>
          exact h3 j' b (by omega) (by simpa using hjb)
    · rw [if_neg hy] at h1 h2 h3 ⊢
      cases i' with
      | zero =>
        refine ⟨0, by simpa using h1, ?_, ?_⟩
        · intro b hb
          rcases List.mem_cons.mp hb with rfl | hb'
          · exact h2 _ (List.mem_cons_self _ _)
          rcases List.mem_cons.mp hb' with rfl | hb''
          · have := h2 _ (List.mem_cons_self _ _)
            omega
          · exact h2 b (List.mem_cons_of_mem _ hb'')
        · intro j b hj _
          omega
      | succ k =>
        refine ⟨k + 2, by simpa using h1, ?_, ?_⟩
        · intro b hb
          rcases List.mem_cons.mp hb with rfl | hb'
          · exact h2 _ (List.mem_cons_self _ _)
          rcases List.mem_cons.mp hb' with rfl | hb''
          · have h0 := h3 0 acc (Nat.succ_pos k) (by simp)
            omega
          · exact h2 b (List.mem_cons_of_mem _ hb'')
        · intro j b hj hjb
          cases j with
          | zero =>
            simp only [List.getElem?_cons_zero, Option.some.injEq] at hjb
            exact hjb ▸ h3 0 acc (Nat.succ_pos k) (by simp)
          | succ j' =>
            cases j' with
            | zero =>
              simp only [List.getElem?_cons_succ,
                List.getElem?_cons_zero, Option.some.injEq] at hjb
              have h0 := h3 0 acc (Nat.succ_pos k) (by simp)
              exact hjb ▸ (by omega :
                key (min_by_key_go key acc ys) < key y)
            | succ j'' =>
              exact h3 (j'' + 1) b (by omega) (by simpa using hjb)

/-- `min_by_key` on a nonempty list returns the first element attaining the
minimal key. -/
theorem min_by_key_spec (key : α → Nat) (l : List α) (hl : l ≠ []) :
    ∃ sel i, min_by_key key l = some sel ∧ l[i]? = some sel ∧
      (∀ b ∈ l, key sel ≤ key b) ∧
      (∀ (j : Nat) (b : α), j < i → l[j]? = some b → key sel < key b) := by
  cases l with
  | nil => exact absurd rfl hl
  | cons x xs =>
    obtain ⟨i, h1, h2, h3⟩ := min_by_key_go_spec key xs x
    exact ⟨min_by_key_go key x xs, i, rfl, h1, h2, h3⟩

/-- Claim C1: in both backends, when at least one adapter passes the
extension check and the graphics+present queue-family check, the selected
adapter has the minimum device-type rank among the passing adapters, and
among equally-ranked passing adapters it is the earliest in enumeration
order (every passing adapter enumerated before it ranks strictly worse). -/
theorem device_selection_min_rank (devs : List PhysicalDeviceInfo)
    (h1 : ok_physical_devices devs ≠ [])
    (h2 : vulkano_candidates devs ≠ []) :
    (∃ sel i, create_device devs = some sel ∧
      (ok_physical_devices devs)[i]? = some sel ∧
      (∀ c ∈ ok_physical_devices devs,
        deviceTypeRank sel.1.device_type ≤ deviceTypeRank c.1.device_type) ∧
      (∀ (j : Nat) (c : PhysicalDeviceInfo × Nat), j < i →
        (ok_physical_devices devs)[j]? = some c →
        deviceTypeRank sel.1.device_type < deviceTypeRank c.1.device_type)) ∧
    (∃ sel i, renderer_new_device_selection devs = some sel ∧
      (vulkano_candidates devs)[i]? = some sel ∧
      (∀ c ∈ vulkano_candidates devs,
        deviceTypeRank sel.1.device_type ≤ deviceTypeRank c.1.device_type) ∧
      (∀ (j : Nat) (c : PhysicalDeviceInfo × QueueFamilyInfo), j < i →
        (vulkano_candidates devs)[j]? = some c →
        deviceTypeRank sel.1.device_type < deviceTypeRank c.1.device_type)) := by
  constructor
  · obtain ⟨sel, i, hh, hmem, hmin, hstrict⟩ :=
      head?_mergeSort_key (fun c => deviceTypeRank c.1.device_type)
        (ok_physical_devices devs) h1
    exact ⟨sel, i, hh, hmem, hmin, hstrict⟩
  · obtain ⟨sel, i, hh, hmem, hmin, hstrict⟩ :=
      min_by_key_spec (fun c => deviceTypeRank c.1.device_type)
        (vulkano_candidates devs) h2
    exact ⟨sel, i, hh, hmem, hmin, hstrict⟩

/-- Witness for claim C1: with a CPU adapter enumerated before a discrete
GPU, selection picks a minimal-rank passing adapter. -/
theorem device_selection_min_rank_witness :
    (ok_physical_devices witness_devices ≠ []) ∧
    (vulkano_candidates witness_devices ≠ []) ∧
    (∃ sel i, create_device witness_devices = some sel ∧
      (ok_physical_devices witness_devices)[i]? = some sel ∧
      (∀ c ∈ ok_physical_devices witness_devices,
        deviceTypeRank sel.1.device_type ≤ deviceTypeRank c.1.device_type) ∧
      (∀ (j : Nat) (c : PhysicalDeviceInfo × Nat), j < i →
        (ok_physical_devices witness_devices)[j]? = some c →
        deviceTypeRank sel.1.device_type < deviceTypeRank c.1.device_type)) :=
  ⟨by decide, by decide,
    (device_selection_min_rank witness_devices (by decide) (by decide)).1⟩

end RacingGame
